import Mathlib

/-!
Verification of the admin-worker authentication and routing core.

JavaScript strings are modelled as lists of characters (`Str`); byte
sequences (ArrayBuffer / binary strings) as lists of naturals below 256.
JavaScript runtime primitives that the worker calls (HMAC-SHA256 via
crypto.subtle, the SHA-256 hex digest, Date#toISOString) are opaque and
are therefore parameters of the model, collected in `JSRuntime`.
-/

/-- JavaScript strings, modelled as their character lists. -/
abbrev Str := List Char

/-- Embed a Lean string literal as a modelled JS string. -/
def str (s : String) : Str := s.toList

/-- JS `s.split(sep)` for a single-character separator: splits at every
occurrence, keeping empty pieces (so `"".split` is `[""]`). -/
def splitCh (sep : Char) : Str → List Str
  | [] => [[]]
  | c :: cs =>
    match splitCh sep cs with
    | [] => [[]]
    | g :: gs => if c = sep then [] :: g :: gs else (c :: g) :: gs

/-- `expectLit lit s` consumes the literal `lit` from the front of `s`,
returning the rest, or `none` if `lit` is not there. -/
def expectLit : Str → Str → Option Str
  | [], s => some s
  | _ :: _, [] => none
  | c :: cs, d :: ds => if c = d then expectLit cs ds else none

/-- JS `String#startsWith` for the modelled strings. -/
def startsWithStr (lit s : Str) : Bool := (expectLit lit s).isSome

/- ## Base64 (the JS `btoa` / `atob` built-ins)

`btoa` maps a binary string (bytes 0..255) to standard base64 with `=`
padding.  `atob` implements forgiving-base64 decode: ASCII whitespace is
removed, and if the length is a multiple of 4 up to two trailing `=` are
stripped; excess bits of a final 2- or 3-character group are discarded. -/

/-- The standard base64 alphabet, in index order. -/
def b64chars : Str := str "ABCDEFGHIJKLMNOPQRSTUVWXYZabcdefghijklmnopqrstuvwxyz0123456789+/"

/-- Character for a sextet value (0..63). -/
def sextetChar (n : Nat) : Char := b64chars.getD n '?'

/-- Sextet value of a base64 character, if any. -/
def sextetVal (c : Char) : Option Nat := b64chars.indexOf? c

/-- Core of `btoa`: encode bytes in groups of three, padding the final
partial group with `=`. -/
def btoaCore : List Nat → Str
  | [] => []
  | [b0] => [sextetChar (b0 / 4), sextetChar (b0 % 4 * 16), '=', '=']
  | [b0, b1] => [sextetChar (b0 / 4), sextetChar (b0 % 4 * 16 + b1 / 16),
                 sextetChar (b1 % 16 * 4), '=']
  | b0 :: b1 :: b2 :: rest =>
    sextetChar (b0 / 4) :: sextetChar (b0 % 4 * 16 + b1 / 16) ::
    sextetChar (b1 % 16 * 4 + b2 / 64) :: sextetChar (b2 % 64) :: btoaCore rest

/-- Core of `atob`: decode groups of four characters; a final group of
two or three characters yields one or two bytes (excess bits dropped). -/
def atobCore : Str → Option (List Nat)
  | [] => some []
  | [c0, c1] => do
    let s0 ← sextetVal c0
    let s1 ← sextetVal c1
    pure [s0 * 4 + s1 / 16]
  | [c0, c1, c2] => do
    let s0 ← sextetVal c0
    let s1 ← sextetVal c1
    let s2 ← sextetVal c2
    pure [s0 * 4 + s1 / 16, s1 % 16 * 16 + s2 / 4]
  | c0 :: c1 :: c2 :: c3 :: rest => do
    let s0 ← sextetVal c0
    let s1 ← sextetVal c1
    let s2 ← sextetVal c2
    let s3 ← sextetVal c3
    let tl ← atobCore rest
    pure ((s0 * 4 + s1 / 16) :: (s1 % 16 * 16 + s2 / 4) :: (s2 % 4 * 64 + s3) :: tl)
  | _ => none

/-- ASCII whitespace removed by forgiving-base64 decode. -/
def isB64Space (c : Char) : Bool :=
  c = ' ' || c = '\t' || c = '\n' || c = '\r' || c = '\x0c'

/-- Strip up to two trailing `=` characters. -/
def dropPad (t : Str) : Str :=
  match t.getLast? with
  | some '=' =>
    let t1 := t.dropLast
    match t1.getLast? with
    | some '=' => t1.dropLast
    | _ => t1
  | _ => t

/-- The JS `atob` built-in (forgiving-base64 decode); `none` models the
thrown `InvalidCharacterError`. -/
def atobJS (s : Str) : Option (List Nat) :=
  let t := s.filter (fun c => !(isB64Space c))
  let t1 := if t.length % 4 = 0 then dropPad t else t
  atobCore t1

/-- Map applied by `base64UrlEncode` after `btoa`: `+` to `-`, `/` to `_`. -/
def urlEncMap (c : Char) : Char :=
  if c = '+' then '-' else if c = '/' then '_' else c

/-- Inverse substitution applied by the decoders before `atob`. -/
def urlDecMap (c : Char) : Char :=
  if c = '-' then '+' else if c = '_' then '/' else c

/-- `base64UrlEncode` on an ArrayBuffer argument: `btoa` of the bytes,
then the `+`/`/` substitution and removal of every `=`. -/
def base64UrlEncode (b : List Nat) : Str :=
  ((btoaCore b).map urlEncMap).filter (fun c => c ≠ '=')

/-- `base64UrlEncode` on a string argument: the string's char codes are
the bytes handed to `btoa` (JS treats the string as latin-1; all strings
encoded by this worker are ASCII). -/
def base64UrlEncodeStr (s : Str) : Str := base64UrlEncode (s.map Char.toNat)

/-- Restore `=` padding to a multiple of four characters. -/
def padB64 (t : Str) : Str :=
  let pad := t.length % 4
  if pad = 0 then t else t ++ List.replicate (4 - pad) '='

/-- `base64UrlDecode`: undo the substitution, restore padding, `atob`. -/
def base64UrlDecode (s : Str) : Option (List Nat) :=
  atobJS (padB64 (s.map urlDecMap))

/-- `base64UrlDecodeString`: decode and reassemble the bytes into a
string via `String.fromCharCode`. -/
def base64UrlDecodeString (s : Str) : Option Str :=
  (base64UrlDecode s).map (fun bs => bs.map Char.ofNat)

/-- Strip every `=` character (the final step of `base64UrlEncode`). -/
def b64strip (s : Str) : Str := s.filter (fun c => c ≠ '=')

/- ## Decimal numerals (the JS number-to-string form for integers) -/

/-- Decimal digit character. -/
def digit10Char (d : Nat) : Char := (str "0123456789").getD d '0'

/-- Base-10 digits, least significant first, by fuel recursion (kernel
reducible; agrees with Nat.digits by the lemma below). -/
def natDigitsAux : Nat → Nat → List Nat
  | 0, _ => []
  | fuel + 1, n => if n = 0 then [] else n % 10 :: natDigitsAux fuel (n / 10)

/-- JS decimal rendering of a natural number. -/
def natToChars (n : Nat) : Str :=
  if n = 0 then ['0'] else ((natDigitsAux n n).map digit10Char).reverse

/-- JS decimal rendering of an integer. -/
def intToChars (i : Int) : Str :=
  if i < 0 then '-' :: natToChars i.natAbs else natToChars i.natAbs

/-- ASCII decimal digit test. -/
def isDigit10 (c : Char) : Bool := 48 ≤ c.toNat && c.toNat ≤ 57

/-- Greedy digit scan: the longest digit run and the remainder. -/
def takeDigits : Str → (Str × Str)
  | [] => ([], [])
  | c :: cs =>
    if isDigit10 c then
      let p := takeDigits cs
      (c :: p.1, p.2)
    else ([], c :: cs)

/-- Decimal value of a digit string. -/
def digitsVal (ds : Str) : Nat := ds.foldl (fun a c => 10 * a + (c.toNat - 48)) 0

/-- Parse a decimal natural from the front of a string. -/
def parseNatFrom (s : Str) : Option (Nat × Str) :=
  let p := takeDigits s
  if p.1 = [] then none else some (digitsVal p.1, p.2)

/-- Parse an optionally-negated decimal integer from the front of a
string (the shape JSON.stringify emits for the worker's numbers). -/
def parseIntFrom (s : Str) : Option (Int × Str) :=
  if s.head? = some '-' then (parseNatFrom s.tail).map (fun p => (-(p.1 : Int), p.2))
  else (parseNatFrom s).map (fun p => ((p.1 : Int), p.2))

/- ## The token payload and its JSON form -/

/-- Payload objects the worker builds (`createPayload`): userId, iat and
an optional exp claim; JSON.stringify omits an absent field. -/
structure Payload where
  userId : Nat
  iat : Int
  exp : Option Int
deriving DecidableEq

/-- JSON.stringify of a payload object, keys in insertion order. -/
def jsonStringifyPayload (p : Payload) : Str :=
  str "\x7b\"userId\":" ++ natToChars p.userId ++ str ",\"iat\":" ++ intToChars p.iat ++
    (match p.exp with
     | some e => str ",\"exp\":" ++ intToChars e
     | none => []) ++ ['\x7d']

/-- JSON.parse specialised to the payload object shapes the worker
produces; `none` models a thrown SyntaxError (payloads of other JSON
shapes are outside the modelled claims). -/
def jsonParsePayload (s : Str) : Option Payload := do
  let s1 ← expectLit (str "\x7b\"userId\":") s
  let p1 ← parseNatFrom s1
  let s2 ← expectLit (str ",\"iat\":") p1.2
  let p2 ← parseIntFrom s2
  match expectLit (str ",\"exp\":") p2.2 with
  | some s3 => do
    let p3 ← parseIntFrom s3
    let s4 ← expectLit ['\x7d'] p3.2
    if s4 = [] then pure ⟨p1.1, p2.1, some p3.1⟩ else none
  | none => do
    let s4 ← expectLit ['\x7d'] p2.2
    if s4 = [] then pure ⟨p1.1, p2.1, none⟩ else none

/- ## Opaque JS runtime primitives

crypto.subtle HMAC-SHA256 (signData / verifySignature), the SHA-256 hex
digest used for password hashing, and Date#toISOString are environment
primitives, modelled as parameters; an HMAC value is a byte sequence. -/

structure JSRuntime where
  hmacSHA256 : Str → Str → List Nat
  sha256hex : Str → Str
  toISOString : Int → Str
  hmac_bytes : ∀ d k, ∀ b ∈ hmacSHA256 d k, b < 256

/- ## JWT generation and validation (src/auth/validators.js) -/

/-- JSON.stringify of the fixed header object. -/
def jwtHeaderStr : Str := str "\x7b\"alg\":\"HS256\",\"typ\":\"JWT\"\x7d"

/-- generateJWT: encode header and payload, sign `header.payload` with
HMAC-SHA256, and join the three base64url parts with dots. -/
def generateJWT (rt : JSRuntime) (payload : Payload) (secret : Str) : Str :=
  let headerB64 := base64UrlEncodeStr jwtHeaderStr
  let payloadB64 := base64UrlEncodeStr (jsonStringifyPayload payload)
  let data := headerB64 ++ '.' :: payloadB64
  let signatureB64 := base64UrlEncode (rt.hmacSHA256 data secret)
  data ++ '.' :: signatureB64

/-- validateJWT: split on dots (exactly 3 parts or `Invalid token
format`), verify the signature (recompute the MAC and compare; mismatch
is `Invalid signature`), decode and parse the payload, then reject a
truthy, strictly-past exp claim with `Token expired`.  The `Except`
error carries the thrown Error's message; `InvalidCharacterError` and
`SyntaxError` stand for exceptions raised by atob and JSON.parse. -/
def validateJWT (rt : JSRuntime) (token : Str) (secret : Str) (now : Int) : Except Str Payload :=
  match splitCh '.' token with
  | [headerB64, payloadB64, signatureB64] =>
    let data := headerB64 ++ '.' :: payloadB64
    match base64UrlDecode signatureB64 with
    | none => .error (str "InvalidCharacterError")
    | some signature =>
      if rt.hmacSHA256 data secret = signature then
        match base64UrlDecodeString payloadB64 with
        | none => .error (str "InvalidCharacterError")
        | some payloadStr =>
          match jsonParsePayload payloadStr with
          | none => .error (str "SyntaxError")
          | some payload =>
            match payload.exp with
            | some e => if e ≠ 0 ∧ e < now then .error (str "Token expired") else .ok payload
            | none => .ok payload
      else .error (str "Invalid signature")
  | _ => .error (str "Invalid token format")

/-- createPayload: standard claims, with `exp = iat + expiresInSeconds`;
`now` is the whole-second clock reading `Math.floor(Date.now() / 1000)`. -/
def createPayload (userId : Nat) (expiresInSeconds : Int) (now : Int) : Payload :=
  ⟨userId, now, some (now + expiresInSeconds)⟩

/- ## decodeURIComponent (used for router path parameters) -/

/-- Hexadecimal digit value. -/
def hexVal (c : Char) : Option Nat :=
  if 48 ≤ c.toNat ∧ c.toNat ≤ 57 then some (c.toNat - 48)
  else if 65 ≤ c.toNat ∧ c.toNat ≤ 70 then some (c.toNat - 55)
  else if 97 ≤ c.toNat ∧ c.toNat ≤ 102 then some (c.toNat - 87)
  else none

/-- UTF-8 encoding of one code point. -/
def charUtf8 (c : Char) : List Nat :=
  let n := c.toNat
  if n < 128 then [n]
  else if n < 2048 then [192 + n / 64, 128 + n % 64]
  else if n < 65536 then [224 + n / 4096, 128 + n / 64 % 64, 128 + n % 64]
  else [240 + n / 262144, 128 + n / 4096 % 64, 128 + n / 64 % 64, 128 + n % 64]

/-- Percent-sequence collection: each `%HH` contributes a byte, any
other character its UTF-8 bytes; `none` is the URIError for a truncated
or non-hex escape. -/
def pctBytes : Str → Option (List Nat)
  | [] => some []
  | '%' :: c1 :: c2 :: rest => do
    let h ← hexVal c1
    let l ← hexVal c2
    let tl ← pctBytes rest
    pure ((16 * h + l) :: tl)
  | '%' :: _ => none
  | c :: rest => (pctBytes rest).map (fun tl => charUtf8 c ++ tl)

/-- Is a byte a UTF-8 continuation byte. -/
def isUtf8Cont (b : Nat) : Bool := 128 ≤ b && b < 192

/-- UTF-8 decoding with the standard validity checks (overlong forms,
surrogates and out-of-range values rejected). -/
def utf8Decode : List Nat → Option Str
  | [] => some []
  | b :: rest =>
    if b < 128 then (utf8Decode rest).map (fun cs => Char.ofNat b :: cs)
    else if b < 194 then none
    else if b < 224 then
      match rest with
      | b1 :: r =>
        if isUtf8Cont b1 then
          (utf8Decode r).map (fun cs => Char.ofNat ((b - 192) * 64 + (b1 - 128)) :: cs)
        else none
      | _ => none
    else if b < 240 then
      match rest with
      | b1 :: b2 :: r =>
        if isUtf8Cont b1 && isUtf8Cont b2 then
          let v := (b - 224) * 4096 + (b1 - 128) * 64 + (b2 - 128)
          if 2048 ≤ v ∧ (v < 55296 ∨ 57344 ≤ v) then
            (utf8Decode r).map (fun cs => Char.ofNat v :: cs)
          else none
        else none
      | _ => none
    else if b < 245 then
      match rest with
      | b1 :: b2 :: b3 :: r =>
        if isUtf8Cont b1 && isUtf8Cont b2 && isUtf8Cont b3 then
          let v := (b - 240) * 262144 + (b1 - 128) * 4096 + (b2 - 128) * 64 + (b3 - 128)
          if 65536 ≤ v ∧ v < 1114112 then
            (utf8Decode r).map (fun cs => Char.ofNat v :: cs)
          else none
        else none
      | _ => none
    else none

/-- The decodeURIComponent built-in; `none` models the thrown URIError. -/
def decodeURIComponentJS (s : Str) : Option Str := (pctBytes s).bind utf8Decode

/- ## Router (src/router.js) -/

/-- `path.split("/").filter(Boolean)`: the non-empty segments. -/
def segmentsOf (s : Str) : List Str := (splitCh '/' s).filter (fun x => x ≠ [])

/-- The handlers referenced by the route table. -/
inductive HandlerId
  | login | session | createPost | updatePost | deletePost | imageUpload | deleteComment
deriving DecidableEq

/-- A route table entry: "METHOD /path/pattern" and its handler. -/
structure RouteEntry where
  pattern : Str
  handler : HandlerId
deriving DecidableEq

/-- A match: the entry's handler and the captured parameters in
insertion order. -/
structure RouteMatch where
  handler : HandlerId
  params : List (Str × Str)
deriving DecidableEq

/-- The segment-comparison loop of matchPattern: a `:name` pattern
segment records the percent-decoded path segment, a literal must equal
the path segment exactly; `Except.error` is a URIError escaping the
loop. -/
def matchSegs : List Str → List Str → List (Str × Str) → Except Str (Option (List (Str × Str)))
  | [], [], params => .ok (some params)
  | pp :: ps, qp :: qs, params =>
    match pp with
    | ':' :: name =>
      match decodeURIComponentJS qp with
      | some v => matchSegs ps qs (params ++ [(name, v)])
      | none => .error (str "URIError")
    | _ =>
      if pp = qp then matchSegs ps qs params else .ok none
  | _, _, _ => .ok none

/-- matchPattern: same number of segments, then segment-wise match. -/
def matchPattern (pat path : Str) : Except Str (Option (List (Str × Str))) :=
  let patternParts := segmentsOf pat
  let pathParts := segmentsOf path
  if patternParts.length ≠ pathParts.length then .ok none
  else matchSegs patternParts pathParts []

/-- Method component of `route.pattern.split(" ", 2)`. -/
def routeMethodOf (pat : Str) : Str := (splitCh ' ' pat).getD 0 []

/-- Path-pattern component of `route.pattern.split(" ", 2)`. -/
def routePatternOf (pat : Str) : Str := (splitCh ' ' pat).getD 1 []

/-- findRoute: scan the table in registration order; skip on method
mismatch; first full pattern match wins. -/
def findRoute (rs : List RouteEntry) (method pathname : Str) : Except Str (Option RouteMatch) :=
  match rs with
  | [] => .ok none
  | r :: rest =>
    if routeMethodOf r.pattern ≠ method then findRoute rest method pathname
    else
      match matchPattern (routePatternOf r.pattern) pathname with
      | .error e => .error e
      | .ok (some params) => .ok (some ⟨r.handler, params⟩)
      | .ok none => findRoute rest method pathname

/-- The route table of src/router.js, in registration order. -/
def routes : List RouteEntry :=
  [⟨str "POST /login", .login⟩,
   ⟨str "GET /session", .session⟩,
   ⟨str "POST /admin/posts", .createPost⟩,
   ⟨str "PUT /admin/posts/:postId", .updatePost⟩,
   ⟨str "DELETE /admin/posts/:postId", .deletePost⟩,
   ⟨str "POST /admin/images", .imageUpload⟩,
   ⟨str "DELETE /admin/comments/:commentId", .deleteComment⟩]

/- ## HTTP model (requests, responses, environment bindings) -/

/-- JSON values appearing in the modelled response bodies. -/
inductive JVal
  | s (v : Str)
  | n (v : Int)
  | b (v : Bool)
deriving DecidableEq

/-- An HTTP response: status and JSON object body. -/
structure Response where
  status : Nat
  body : List (Str × JVal)
deriving DecidableEq

/-- Modelled from the spec: utils/response.js is missing from the
snapshot; per spec sections 6-7 an error response is the status with a
generic error envelope carrying the message. -/
def errorResponse (m : Str) (status : Nat) : Response := ⟨status, [(str "error", .s m)]⟩

/-- Modelled from the spec: utils/response.js is missing from the
snapshot; a success response carries the handler's data object. -/
def successResponse (data : List (Str × JVal)) (status : Nat) : Response := ⟨status, data⟩

/-- A login request body (fields may be absent). -/
structure LoginBody where
  username : Option Str
  password : Option Str
deriving DecidableEq

/-- An incoming request: method, pathname, the Authorization header if
present, and the JSON body if present and well-formed (an absent body
models a request.json() failure). -/
structure Request where
  method : Str
  path : Str
  authorization : Option Str
  jsonBody : Option LoginBody
deriving DecidableEq

/-- The environment bindings the auth path reads. -/
structure Env where
  ADMIN_USERNAME : Str
  ADMIN_PASSWORD : Str
  PASSWORD_SALT : Str
  JWT_SECRET : Str
  JWT_EXPIRY : Option Str
deriving DecidableEq

/- ## Authentication middleware (src/auth/middleware.js) -/

/-- verifyToken: require a `Bearer ` Authorization header, then
validateJWT on the rest of the header; `Except.error` is the early 401
response, `Except.ok` the authorized result carrying the decoded user. -/
def verifyToken (rt : JSRuntime) (now : Int) (req : Request) (env : Env) :
    Except Response (Option Payload) :=
  match req.authorization with
  | none =>
    .error (errorResponse (str "Unauthorized - Missing or invalid authorization header") 401)
  | some h =>
    if startsWithStr (str "Bearer ") h then
      match validateJWT rt (h.drop 7) env.JWT_SECRET now with
      | .ok payload => .ok (some payload)
      | .error m => .error (errorResponse (str "Unauthorized - " ++ m) 401)
    else
      .error (errorResponse (str "Unauthorized - Missing or invalid authorization header") 401)

/-- The middleware's public endpoint list. -/
def publicEndpoints : List Str := [str "/login", str "/session"]

/-- authenticate: /session always runs verifyToken; the remaining
public endpoint (login) passes with no user; all other paths run
verifyToken. -/
def authenticate (rt : JSRuntime) (now : Int) (req : Request) (env : Env) :
    Except Response (Option Payload) :=
  let isPublicEndpoint := publicEndpoints.any (fun e => e == req.path)
  if req.path = str "/session" then verifyToken rt now req env
  else if isPublicEndpoint then .ok none
  else verifyToken rt now req env

/-- validateCredentials (middleware): read the body, require both
fields truthy, then compare the submitted username and password
directly against env.ADMIN_USERNAME / env.ADMIN_PASSWORD.  `some 1` is
the valid result with the admin user id; `none` is invalid (including
the catch branch for an unreadable body). -/
def validateCredentials (req : Request) (env : Env) : Option Nat :=
  match req.jsonBody with
  | none => none
  | some body =>
    match body.username, body.password with
    | some u, some p =>
      if u = [] ∨ p = [] then none
      else if u = env.ADMIN_USERNAME ∧ p = env.ADMIN_PASSWORD then some 1
      else none
    | _, _ => none

/- ## Auth handlers (src/handlers/auth.js) -/

/-- Modelled from the spec: utils/validation.js is missing from the
snapshot; validateLoginRequest requires both fields present and
non-empty (missing fields are the 400 ValidationError). -/
def validateLoginRequest (body : LoginBody) : Bool :=
  match body.username, body.password with
  | some u, some p => u ≠ [] && p ≠ []
  | _, _ => false

/-- The lookup `env.JWT_EXPIRY || "7200"`. -/
def jwtExpiryStr (env : Env) : Str :=
  match env.JWT_EXPIRY with
  | none => str "7200"
  | some s => if s = [] then str "7200" else s

/-- JS parseInt in radix 10: optional sign, then the leading digit run;
`none` is NaN.  (Input whitespace and the 0x prefix do not occur in the
configurations exercised here.) -/
def parseIntJS (s : Str) : Option Int :=
  if s.head? = some '-' then (parseNatFrom s.tail).map (fun p => -(p.1 : Int))
  else if s.head? = some '+' then (parseNatFrom s.tail).map (fun p => (p.1 : Int))
  else (parseNatFrom s).map (fun p => (p.1 : Int))

/-- `parseInt(env.JWT_EXPIRY || "7200")`. -/
def expiryOf (env : Env) : Option Int := parseIntJS (jwtExpiryStr env)

/-- A request whose body stream has already been read: in the Workers
runtime the body is single-use, so a further request.json() rejects
(the same outcome as an absent body). -/
def consumeBody (req : Request) : Request :=
  { req with jsonBody := none }

/-- handleLogin: body parse, request validation (400), credential check
via validateCredentials (401), then token generation with the
configured expiry.  handleLogin has already consumed the request body
when it calls validateCredentials, whose own request.json() therefore
rejects and lands in its catch branch - so the success branch below is
unreachable and every login with a readable body ends in 400 or 401.
The `none` result is the one unmodelled configuration: a set,
non-numeric JWT_EXPIRY (NaN arithmetic). -/
def handleLogin (rt : JSRuntime) (now : Int) (req : Request) (env : Env) : Option Response :=
  match req.jsonBody with
  | none => some (errorResponse (str "Internal server error") 500)
  | some body =>
    if validateLoginRequest body = false then
      some (errorResponse (str "Missing username or password") 400)
    else
      match validateCredentials (consumeBody req) env with
      | none => some (errorResponse (str "Invalid credentials") 401)
      | some userId =>
        match expiryOf env with
        | none => none
        | some expirySeconds =>
          some (successResponse
            [(str "token",
              .s (generateJWT rt (createPayload userId expirySeconds now) env.JWT_SECRET)),
             (str "expiresIn", .n expirySeconds)] 200)

/-- handleSessionValidation: 401 without a user; otherwise 200 with the
session body (a payload with no exp would make Date throw, caught as a
generic 500). -/
def handleSessionValidation (rt : JSRuntime) (user : Option Payload) : Response :=
  match user with
  | none => errorResponse (str "Invalid or missing token") 401
  | some u =>
    match u.exp with
    | some e =>
      successResponse [(str "valid", .b true), (str "userId", .n (u.userId : Int)),
        (str "expiresAt", .s (rt.toISOString e))] 200
    | none => errorResponse (str "Internal server error") 500

/- ## AuthService (services/AuthService.js, environment-variable variant) -/

/-- The two error kinds AuthService.login throws. -/
inductive AuthErr
  | validation (m : Str)
  | unauthorized (m : Str)
deriving DecidableEq

/-- AuthService.login's success value. -/
structure LoginOk where
  token : Str
  expiresIn : Int
deriving DecidableEq

/-- AuthService.hashPassword: SHA-256 hex digest of password + salt. -/
def AuthService.hashPassword (rt : JSRuntime) (password salt : Str) : Str :=
  rt.sha256hex (password ++ salt)

/-- AuthService.login: request validation, username comparison, then
comparison of `hashPassword(password, salt)` with the configured
ADMIN_PASSWORD, then token issuance.  The non-numeric JWT_EXPIRY
configuration is left out as in handleLogin. -/
def AuthService.login (rt : JSRuntime) (now : Int) (credentials : LoginBody) (env : Env) :
    Except AuthErr LoginOk :=
  if validateLoginRequest credentials = false then
    .error (.validation (str "Missing username or password"))
  else
    match credentials.username, credentials.password with
    | some u, some p =>
      if u ≠ env.ADMIN_USERNAME then .error (.unauthorized (str "Invalid credentials"))
      else if AuthService.hashPassword rt p env.PASSWORD_SALT ≠ env.ADMIN_PASSWORD then
        .error (.unauthorized (str "Invalid credentials"))
      else
        match expiryOf env with
        | none => .error (.validation (str "unmodelled: non-numeric JWT_EXPIRY"))
        | some expirySeconds =>
          .ok ⟨generateJWT rt (createPayload 1 expirySeconds now) env.JWT_SECRET, expirySeconds⟩
    | _, _ => .error (.validation (str "Missing username or password"))

/- ## Dispatch (router function and the worker fetch entry) -/

/-- What became of a request: a computed response, or dispatch into a
business handler (recorded with its parameters and caller identity). -/
inductive FetchResult
  | resp (r : Response)
  | dispatched (h : HandlerId) (params : List (Str × Str)) (user : Option Payload)
deriving DecidableEq

/-- Modelled from the spec: utils/response.js handleCORS; the OPTIONS
preflight response (no claim depends on its contents). -/
def corsResponse : Response := ⟨204, []⟩

/-- router: find the route, 404 when none, else invoke the matched
handler with the user it was handed.  The two auth handlers are
modelled in full; the rest are business logic behind the dispatch
boundary, so the result records the call.  A URIError thrown during
matching is caught by the try/catch and converted to a 500. -/
def router (rt : JSRuntime) (now : Int) (req : Request) (env : Env) (user : Option Payload) :
    FetchResult :=
  match findRoute routes req.method req.path with
  | .error _ => .resp (errorResponse (str "Internal server error") 500)
  | .ok none => .resp (errorResponse (str "Not Found") 404)
  | .ok (some m) =>
    match m.handler with
    | .login =>
      match handleLogin rt now req env with
      | some r => .resp r
      | none => .resp (errorResponse (str "unmodelled: non-numeric JWT_EXPIRY") 500)
    | .session => .resp (handleSessionValidation rt user)
    | h => .dispatched h m.params user

/-- The worker's fetch entry (src/index.js): apart from the OPTIONS
preflight, it calls `router(request, env, ctx, null, logger)` directly -
authenticate is never invoked and the user argument is always null. -/
def workerFetch (rt : JSRuntime) (now : Int) (req : Request) (env : Env) : FetchResult :=
  if req.method = str "OPTIONS" then .resp corsResponse
  else router rt now req env none

/- ## Concrete fixtures for witness evaluations -/

deriving instance DecidableEq for Except

/-- A concrete runtime instance: a fixed two-byte MAC, a tagging digest
and a constant clock rendering. -/
def rtTest : JSRuntime where
  hmacSHA256 := fun _ _ => [1, 2]
  sha256hex := fun s => s ++ str "#"
  toISOString := fun _ => str "1970-01-01T02:00:00.000Z"
  hmac_bytes := by
    intro d k b hb
    simp at hb
    rcases hb with rfl | rfl <;> omega

/-- A concrete environment: secret "k", plaintext-looking password
configuration. -/
def envTest : Env := ⟨str "admin", str "pw", str "s", str "k", none⟩



/- ## Lemmas about the base64 codec -/

theorem sextet_val_char : ∀ n, n < 64 → sextetVal (sextetChar n) = some n := by decide

theorem sextetChar_ne_pad : ∀ n, n < 64 → sextetChar n ≠ '=' := by decide

theorem sextetChar_not_space : ∀ n, n < 64 → isB64Space (sextetChar n) = false := by decide

theorem urlMap_roundtrip : ∀ n, n < 64 → urlDecMap (urlEncMap (sextetChar n)) = sextetChar n := by
  decide

theorem urlEncMap_sextet_ne_pad : ∀ n, n < 64 → urlEncMap (sextetChar n) ≠ '=' := by decide

theorem urlEncMap_sextet_ne_dot : ∀ n, n < 64 → urlEncMap (sextetChar n) ≠ '.' := by decide

theorem btoa_chars (b : List Nat) (h : ∀ x ∈ b, x < 256) :
    ∀ c ∈ btoaCore b, (∃ n, n < 64 ∧ c = sextetChar n) ∨ c = '=' := by
  induction b using btoaCore.induct with
  | case1 => intro c hc; cases hc
  | case2 b0 =>
    have hb0 : b0 < 256 := h b0 (by simp)
    intro c hc
    simp only [btoaCore, List.mem_cons, List.not_mem_nil, or_false] at hc
    rcases hc with rfl | rfl | rfl | rfl
    · exact Or.inl ⟨b0 / 4, by omega, rfl⟩
    · exact Or.inl ⟨b0 % 4 * 16, by omega, rfl⟩
    · exact Or.inr rfl
    · exact Or.inr rfl
  | case3 b0 b1 =>
    have hb0 : b0 < 256 := h b0 (by simp)
    have hb1 : b1 < 256 := h b1 (by simp)
    intro c hc
    simp only [btoaCore, List.mem_cons, List.not_mem_nil, or_false] at hc
    rcases hc with rfl | rfl | rfl | rfl
    · exact Or.inl ⟨b0 / 4, by omega, rfl⟩
    · exact Or.inl ⟨b0 % 4 * 16 + b1 / 16, by omega, rfl⟩
    · exact Or.inl ⟨b1 % 16 * 4, by omega, rfl⟩
    · exact Or.inr rfl
  | case4 b0 b1 b2 rest ih =>
    have hb0 : b0 < 256 := h b0 (by simp)
    have hb1 : b1 < 256 := h b1 (by simp)
    have hb2 : b2 < 256 := h b2 (by simp)
    intro c hc
    simp only [btoaCore, List.mem_cons] at hc
    rcases hc with rfl | rfl | rfl | rfl | hc
    · exact Or.inl ⟨b0 / 4, by omega, rfl⟩
    · exact Or.inl ⟨b0 % 4 * 16 + b1 / 16, by omega, rfl⟩
    · exact Or.inl ⟨b1 % 16 * 4 + b2 / 64, by omega, rfl⟩
    · exact Or.inl ⟨b2 % 64, by omega, rfl⟩
    · exact ih (fun x hx => h x (by simp [hx])) c hc

theorem atob_strip_btoa (b : List Nat) (h : ∀ x ∈ b, x < 256) :
    atobCore (b64strip (btoaCore b)) = some b := by
  induction b using btoaCore.induct with
  | case1 => rfl
  | case2 b0 =>
    have hb0 : b0 < 256 := h b0 (by simp)
    have h0 : sextetChar (b0 / 4) ≠ '=' := sextetChar_ne_pad _ (by omega)
    have h1 : sextetChar (b0 % 4 * 16) ≠ '=' := sextetChar_ne_pad _ (by omega)
    have hs : b64strip (btoaCore [b0]) = [sextetChar (b0 / 4), sextetChar (b0 % 4 * 16)] := by
      simp [btoaCore, b64strip, h0, h1]
    rw [hs]
    have e0 := sextet_val_char (b0 / 4) (by omega)
    have e1 := sextet_val_char (b0 % 4 * 16) (by omega)
    simp [atobCore, e0, e1]
    omega
  | case3 b0 b1 =>
    have hb0 : b0 < 256 := h b0 (by simp)
    have hb1 : b1 < 256 := h b1 (by simp)
    have h0 : sextetChar (b0 / 4) ≠ '=' := sextetChar_ne_pad _ (by omega)
    have h1 : sextetChar (b0 % 4 * 16 + b1 / 16) ≠ '=' := sextetChar_ne_pad _ (by omega)
    have h2 : sextetChar (b1 % 16 * 4) ≠ '=' := sextetChar_ne_pad _ (by omega)
    have hs : b64strip (btoaCore [b0, b1]) =
        [sextetChar (b0 / 4), sextetChar (b0 % 4 * 16 + b1 / 16), sextetChar (b1 % 16 * 4)] := by
      simp [btoaCore, b64strip, h0, h1, h2]
    rw [hs]
    have e0 := sextet_val_char (b0 / 4) (by omega)
    have e1 := sextet_val_char (b0 % 4 * 16 + b1 / 16) (by omega)
    have e2 := sextet_val_char (b1 % 16 * 4) (by omega)
    simp [atobCore, e0, e1, e2]
    omega
  | case4 b0 b1 b2 rest ih =>
    have hb0 : b0 < 256 := h b0 (by simp)
    have hb1 : b1 < 256 := h b1 (by simp)
    have hb2 : b2 < 256 := h b2 (by simp)
    have h0 : sextetChar (b0 / 4) ≠ '=' := sextetChar_ne_pad _ (by omega)
    have h1 : sextetChar (b0 % 4 * 16 + b1 / 16) ≠ '=' := sextetChar_ne_pad _ (by omega)
    have h2 : sextetChar (b1 % 16 * 4 + b2 / 64) ≠ '=' := sextetChar_ne_pad _ (by omega)
    have h3 : sextetChar (b2 % 64) ≠ '=' := sextetChar_ne_pad _ (by omega)
    have ihr := ih (fun x hx => h x (by simp [hx]))
    have hs : b64strip (btoaCore (b0 :: b1 :: b2 :: rest)) =
        sextetChar (b0 / 4) :: sextetChar (b0 % 4 * 16 + b1 / 16) ::
        sextetChar (b1 % 16 * 4 + b2 / 64) :: sextetChar (b2 % 64) ::
        b64strip (btoaCore rest) := by
      simp [btoaCore, b64strip, h0, h1, h2, h3]
    rw [hs]
    have e0 := sextet_val_char (b0 / 4) (by omega)
    have e1 := sextet_val_char (b0 % 4 * 16 + b1 / 16) (by omega)
    have e2 := sextet_val_char (b1 % 16 * 4 + b2 / 64) (by omega)
    have e3 := sextet_val_char (b2 % 64) (by omega)
    simp [atobCore, e0, e1, e2, e3, ihr]
    omega

theorem getLast?_mem_of_eq {α : Type} : ∀ (l : List α) (a : α), l.getLast? = some a → a ∈ l := by
  intro l
  induction l with
  | nil => intro a h; cases h
  | cons x xs ih =>
    intro a h
    cases xs with
    | nil => simp [List.getLast?] at h; simp [h]
    | cons y ys =>
      rw [List.getLast?_cons_cons] at h
      exact List.mem_cons_of_mem _ (ih a h)

theorem dropPad_concat_eq (t : Str) :
    dropPad (t ++ ['=']) =
      (match t.getLast? with | some '=' => t.dropLast | _ => t) := by
  unfold dropPad
  rw [List.getLast?_concat, List.dropLast_concat]
  split <;> simp_all

theorem dropPad_pads (q : Str) (hq : ∀ c ∈ q, c ≠ '=') :
    ∀ k, k ≤ 2 → dropPad (q ++ List.replicate k '=') = q := by
  intro k hk
  interval_cases k
  · simp only [List.replicate, List.append_nil]
    unfold dropPad
    split
    · rename_i heq
      exact absurd (hq _ (getLast?_mem_of_eq _ _ heq)) (by simp)
    · rfl
  · show dropPad (q ++ ['=']) = q
    rw [dropPad_concat_eq]
    split
    · rename_i heq
      exact absurd (hq _ (getLast?_mem_of_eq _ _ heq)) (by simp)
    · rfl
  · show dropPad (q ++ ['=', '=']) = q
    have h2 : q ++ ['=', '='] = (q ++ ['=']) ++ ['='] := by simp
    rw [h2, dropPad_concat_eq, List.getLast?_concat, List.dropLast_concat]
    split <;> simp_all

theorem urlEncMap_eq_pad (c : Char) : (urlEncMap c = '=') ↔ (c = '=') := by
  unfold urlEncMap
  split_ifs with h1 h2
  · subst h1; decide
  · subst h2; decide
  · rfl

theorem base64UrlEncode_eq_strip (b : List Nat) :
    base64UrlEncode b = (b64strip (btoaCore b)).map urlEncMap := by
  unfold base64UrlEncode b64strip
  rw [List.filter_map]
  congr 1
  apply List.filter_congr
  intro c _
  simp [Function.comp, urlEncMap_eq_pad]

theorem strip_len_mod (b : List Nat) (h : ∀ x ∈ b, x < 256) :
    (b64strip (btoaCore b)).length % 4 = 0 ∨ (b64strip (btoaCore b)).length % 4 = 2 ∨
      (b64strip (btoaCore b)).length % 4 = 3 := by
  induction b using btoaCore.induct with
  | case1 => left; rfl
  | case2 b0 =>
    have hb0 : b0 < 256 := h b0 (by simp)
    have h0 : sextetChar (b0 / 4) ≠ '=' := sextetChar_ne_pad _ (by omega)
    have h1 : sextetChar (b0 % 4 * 16) ≠ '=' := sextetChar_ne_pad _ (by omega)
    have hs : b64strip (btoaCore [b0]) = [sextetChar (b0 / 4), sextetChar (b0 % 4 * 16)] := by
      simp [btoaCore, b64strip, h0, h1]
    rw [hs]
    right; left; rfl
  | case3 b0 b1 =>
    have hb0 : b0 < 256 := h b0 (by simp)
    have hb1 : b1 < 256 := h b1 (by simp)
    have h0 : sextetChar (b0 / 4) ≠ '=' := sextetChar_ne_pad _ (by omega)
    have h1 : sextetChar (b0 % 4 * 16 + b1 / 16) ≠ '=' := sextetChar_ne_pad _ (by omega)
    have h2 : sextetChar (b1 % 16 * 4) ≠ '=' := sextetChar_ne_pad _ (by omega)
    have hs : b64strip (btoaCore [b0, b1]) =
        [sextetChar (b0 / 4), sextetChar (b0 % 4 * 16 + b1 / 16), sextetChar (b1 % 16 * 4)] := by
      simp [btoaCore, b64strip, h0, h1, h2]
    rw [hs]
    right; right; rfl
  | case4 b0 b1 b2 rest ih =>
    have hb0 : b0 < 256 := h b0 (by simp)
    have hb1 : b1 < 256 := h b1 (by simp)
    have hb2 : b2 < 256 := h b2 (by simp)
    have h0 : sextetChar (b0 / 4) ≠ '=' := sextetChar_ne_pad _ (by omega)
    have h1 : sextetChar (b0 % 4 * 16 + b1 / 16) ≠ '=' := sextetChar_ne_pad _ (by omega)
    have h2 : sextetChar (b1 % 16 * 4 + b2 / 64) ≠ '=' := sextetChar_ne_pad _ (by omega)
    have h3 : sextetChar (b2 % 64) ≠ '=' := sextetChar_ne_pad _ (by omega)
    have ihr := ih (fun x hx => h x (by simp [hx]))
    have hs : b64strip (btoaCore (b0 :: b1 :: b2 :: rest)) =
        sextetChar (b0 / 4) :: sextetChar (b0 % 4 * 16 + b1 / 16) ::
        sextetChar (b1 % 16 * 4 + b2 / 64) :: sextetChar (b2 % 64) ::
        b64strip (btoaCore rest) := by
      simp [btoaCore, b64strip, h0, h1, h2, h3]
    rw [hs]
    simp only [List.length_cons]
    omega

theorem strip_chars (b : List Nat) (h : ∀ x ∈ b, x < 256) :
    ∀ c ∈ b64strip (btoaCore b), ∃ n, n < 64 ∧ c = sextetChar n := by
  intro c hc
  have hmem : c ∈ btoaCore b := List.mem_of_mem_filter hc
  have hne : c ≠ '=' := by
    have := List.of_mem_filter hc
    simpa using this
  rcases btoa_chars b h c hmem with ⟨n, hn, rfl⟩ | rfl
  · exact ⟨n, hn, rfl⟩
  · exact absurd rfl hne

/-- Main codec roundtrip: decoding the URL-safe encoding of any byte
sequence returns the bytes. -/
theorem b64url_bytes_roundtrip (b : List Nat) (h : ∀ x ∈ b, x < 256) :
    base64UrlDecode (base64UrlEncode b) = some b := by
  have hchars := strip_chars b h
  have hq_ne : ∀ c ∈ b64strip (btoaCore b), c ≠ '=' := by
    intro c hc
    rcases hchars c hc with ⟨n, hn, rfl⟩
    exact sextetChar_ne_pad n hn
  have hq_nospace : ∀ c ∈ b64strip (btoaCore b), isB64Space c = false := by
    intro c hc
    rcases hchars c hc with ⟨n, hn, rfl⟩
    exact sextetChar_not_space n hn
  have hdec : (base64UrlEncode b).map urlDecMap = b64strip (btoaCore b) := by
    rw [base64UrlEncode_eq_strip, List.map_map]
    have : ∀ c ∈ b64strip (btoaCore b), (urlDecMap ∘ urlEncMap) c = id c := by
      intro c hc
      rcases hchars c hc with ⟨n, hn, rfl⟩
      simpa [Function.comp] using urlMap_roundtrip n hn
    rw [List.map_congr_left this, List.map_id]
  unfold base64UrlDecode
  rw [hdec]
  set q := b64strip (btoaCore b) with hq
  have hmod := strip_len_mod b h
  rw [← hq] at hmod
  have hpad : ∃ k, k ≤ 2 ∧ padB64 q = q ++ List.replicate k '=' ∧
      (q ++ List.replicate k '=').length % 4 = 0 := by
    unfold padB64
    rcases hmod with h0 | h2 | h3
    · refine ⟨0, by omega, ?_, ?_⟩
      · simp [h0]
      · simpa using h0
    · refine ⟨2, by omega, ?_, ?_⟩
      · rw [h2]; norm_num
      · simp [List.length_append]; omega
    · refine ⟨1, by omega, ?_, ?_⟩
      · rw [h3]; norm_num
      · simp [List.length_append]; omega
  rcases hpad with ⟨k, hk2, hpadeq, hlen0⟩
  rw [hpadeq]
  unfold atobJS
  have hfilter : (q ++ List.replicate k '=').filter (fun c => !(isB64Space c)) =
      q ++ List.replicate k '=' := by
    rw [List.filter_eq_self]
    intro c hc
    rcases List.mem_append.mp hc with hcq | hcr
    · simp [hq_nospace c hcq]
    · have : c = '=' := List.eq_of_mem_replicate hcr
      subst this
      decide
  simp only [hfilter, hlen0, if_true]
  rw [dropPad_pads q hq_ne k hk2]
  exact atob_strip_btoa b h

theorem char_ofNat_toNat (c : Char) : Char.ofNat c.toNat = c := by
  have hv : c.toNat.isValidChar := c.valid
  unfold Char.ofNat
  rw [dif_pos hv]
  unfold Char.ofNatAux
  apply Char.ext
  apply UInt32.ext
  simp [UInt32.ofNat', UInt32.toNat, Char.toNat]

theorem b64url_str_roundtrip (s : Str) (h : ∀ c ∈ s, c.toNat < 256) :
    base64UrlDecodeString (base64UrlEncodeStr s) = some s := by
  unfold base64UrlDecodeString base64UrlEncodeStr
  have hb : ∀ x ∈ s.map Char.toNat, x < 256 := by
    intro x hx
    rcases List.mem_map.mp hx with ⟨c, hc, rfl⟩
    exact h c hc
  have hmap : (s.map Char.toNat).map Char.ofNat = s := by
    rw [List.map_map]
    have : ∀ c ∈ s, (Char.ofNat ∘ Char.toNat) c = id c := fun c _ => char_ofNat_toNat c
    rw [List.map_congr_left this, List.map_id]
  rw [b64url_bytes_roundtrip _ hb]
  simp [hmap]

theorem b64url_encode_no_dot (b : List Nat) (h : ∀ x ∈ b, x < 256) :
    ∀ c ∈ base64UrlEncode b, c ≠ '.' := by
  intro c hc
  rw [base64UrlEncode_eq_strip] at hc
  rcases List.mem_map.mp hc with ⟨d, hd, rfl⟩
  rcases strip_chars b h d hd with ⟨n, hn, rfl⟩
  exact urlEncMap_sextet_ne_dot n hn

theorem b64url_encode_str_no_dot (s : Str) (h : ∀ c ∈ s, c.toNat < 256) :
    ∀ c ∈ base64UrlEncodeStr s, c ≠ '.' := by
  intro c hc
  apply b64url_encode_no_dot (s.map Char.toNat) _ c hc
  intro x hx
  rcases List.mem_map.mp hx with ⟨d, hd, rfl⟩
  exact h d hd

/- ## Decimal and JSON roundtrip lemmas -/

theorem digit10_props : ∀ d, d < 10 →
    isDigit10 (digit10Char d) = true ∧ (digit10Char d).toNat - 48 = d := by decide

theorem natDigitsAux_eq_digits : ∀ (fuel n : Nat), n ≤ fuel → natDigitsAux fuel n = Nat.digits 10 n := by
  intro fuel
  induction fuel with
  | zero =>
    intro n hn
    interval_cases n
    simp [natDigitsAux]
  | succ f ih =>
    intro n hn
    by_cases h0 : n = 0
    · subst h0
      simp [natDigitsAux]
    · have hd : Nat.digits 10 n = n % 10 :: Nat.digits 10 (n / 10) :=
        Nat.digits_def' (by norm_num) (Nat.pos_of_ne_zero h0)
      have hrec : n / 10 ≤ f := by omega
      unfold natDigitsAux
      rw [if_neg h0, ih (n / 10) hrec, hd]

theorem natToChars_ne_nil (n : Nat) : natToChars n ≠ [] := by
  unfold natToChars
  split
  · simp
  · rename_i hn
    rw [natDigitsAux_eq_digits n n le_rfl]
    have : Nat.digits 10 n ≠ [] := Nat.digits_ne_nil_iff_ne_zero.mpr hn
    simp [this]

theorem natToChars_digits (n : Nat) : ∀ c ∈ natToChars n, isDigit10 c = true := by
  unfold natToChars
  split
  · intro c hc
    simp at hc
    subst hc
    decide
  · intro c hc
    rw [natDigitsAux_eq_digits n n le_rfl] at hc
    rw [List.mem_reverse] at hc
    rcases List.mem_map.mp hc with ⟨d, hd, rfl⟩
    exact (digit10_props d (Nat.digits_lt_base (by norm_num) hd)).1

theorem takeDigits_split (ds r : Str) (hds : ∀ c ∈ ds, isDigit10 c = true)
    (hr : ∀ c, r.head? = some c → isDigit10 c = false) :
    takeDigits (ds ++ r) = (ds, r) := by
  induction ds with
  | nil =>
    simp only [List.nil_append]
    cases r with
    | nil => rfl
    | cons c cs =>
      have := hr c rfl
      simp [takeDigits, this]
  | cons d ds ih =>
    have hd : isDigit10 d = true := hds d (by simp)
    have ihr := ih (fun c hc => hds c (by simp [hc]))
    simp [takeDigits, hd, ihr]

theorem foldr_digits_val (l : List Nat) (h : ∀ d ∈ l, d < 10) :
    l.foldr (fun d a => 10 * a + ((digit10Char d).toNat - 48)) 0 = Nat.ofDigits 10 l := by
  induction l with
  | nil => rfl
  | cons d l ih =>
    have hd := (digit10_props d (h d (by simp))).2
    have ihr := ih (fun x hx => h x (by simp [hx]))
    simp only [List.foldr_cons, ihr, Nat.ofDigits_cons, hd]
    omega

theorem digitsVal_natToChars (n : Nat) : digitsVal (natToChars n) = n := by
  unfold natToChars
  split
  · rename_i h
    subst h
    decide
  · unfold digitsVal
    rw [natDigitsAux_eq_digits n n le_rfl]
    rw [List.foldl_reverse, List.foldr_map]
    rw [foldr_digits_val _ (fun d hd => Nat.digits_lt_base (by norm_num) hd)]
    exact Nat.ofDigits_digits 10 n

theorem parseNatFrom_split (n : Nat) (r : Str)
    (hr : ∀ c, r.head? = some c → isDigit10 c = false) :
    parseNatFrom (natToChars n ++ r) = some (n, r) := by
  unfold parseNatFrom
  rw [takeDigits_split _ _ (natToChars_digits n) hr]
  simp [natToChars_ne_nil n, digitsVal_natToChars n]

theorem natToChars_head_digit (n : Nat) :
    ∃ c cs, natToChars n = c :: cs ∧ isDigit10 c = true := by
  rcases hx : natToChars n with _ | ⟨c, cs⟩
  · exact absurd hx (natToChars_ne_nil n)
  · exact ⟨c, cs, rfl, natToChars_digits n c (by rw [hx]; simp)⟩

theorem parseIntFrom_split (i : Int) (r : Str)
    (hr : ∀ c, r.head? = some c → isDigit10 c = false) :
    parseIntFrom (intToChars i ++ r) = some (i, r) := by
  unfold parseIntFrom intToChars
  by_cases hneg : i < 0
  · simp only [hneg, if_true, List.cons_append, List.head?_cons, List.tail_cons]
    rw [parseNatFrom_split _ _ hr]
    have hv : -((i.natAbs : Int)) = i := by omega
    simp only [Option.map_some']
    rw [hv]
  · simp only [hneg, if_false]
    rcases natToChars_head_digit i.natAbs with ⟨c, cs, hcs, hdig⟩
    have hne : ¬ ((natToChars i.natAbs ++ r).head? = some '-') := by
      rw [hcs, List.cons_append, List.head?_cons]
      intro hcontra
      have hc : c = '-' := by injection hcontra
      subst hc
      exact absurd hdig (by decide)
    rw [if_neg hne]
    rw [parseNatFrom_split _ _ hr]
    have hv : ((i.natAbs : Int)) = i := by omega
    simp only [Option.map_some']
    rw [hv]

theorem expectLit_append (l r : Str) : expectLit l (l ++ r) = some r := by
  induction l with
  | nil => rfl
  | cons c cs ih => simp [expectLit, ih]

theorem comma_not_digit : isDigit10 ',' = false := by decide

theorem brace_not_digit : isDigit10 '\x7d' = false := by decide

theorem jsonParsePayload_stringify (p : Payload) :
    jsonParsePayload (jsonStringifyPayload p) = some p := by
  obtain ⟨u, iat, exp⟩ := p
  cases exp with
  | none =>
    have hstr : jsonStringifyPayload ⟨u, iat, none⟩ =
        str "\x7b\"userId\":" ++ (natToChars u ++ (str ",\"iat\":" ++
          (intToChars iat ++ ['\x7d']))) := by
      simp [jsonStringifyPayload, List.append_assoc]
    have e1 : expectLit (str "\x7b\"userId\":") (str "\x7b\"userId\":" ++ (natToChars u ++
        (str ",\"iat\":" ++ (intToChars iat ++ ['\x7d'])))) =
        some (natToChars u ++ (str ",\"iat\":" ++ (intToChars iat ++ ['\x7d']))) :=
      expectLit_append _ _
    have e2 : parseNatFrom (natToChars u ++ (str ",\"iat\":" ++ (intToChars iat ++ ['\x7d']))) =
        some (u, str ",\"iat\":" ++ (intToChars iat ++ ['\x7d'])) := by
      apply parseNatFrom_split
      intro c hc
      have : c = ',' := by
        simpa [str] using hc.symm
      subst this
      decide
    have e3 : expectLit (str ",\"iat\":") (str ",\"iat\":" ++ (intToChars iat ++ ['\x7d'])) =
        some (intToChars iat ++ ['\x7d']) := expectLit_append _ _
    have e4 : parseIntFrom (intToChars iat ++ ['\x7d']) = some (iat, ['\x7d']) := by
      apply parseIntFrom_split
      intro c hc
      have : c = '\x7d' := by simpa using hc.symm
      subst this
      decide
    have e5 : expectLit (str ",\"exp\":") ['\x7d'] = none := by decide
    unfold jsonParsePayload
    rw [hstr]
    simp [e1, e2, e3, e4, e5, expectLit]
  | some e =>
    have hstr : jsonStringifyPayload ⟨u, iat, some e⟩ =
        str "\x7b\"userId\":" ++ (natToChars u ++ (str ",\"iat\":" ++
          (intToChars iat ++ (str ",\"exp\":" ++ (intToChars e ++ ['\x7d']))))) := by
      simp [jsonStringifyPayload, List.append_assoc]
    have e1 : expectLit (str "\x7b\"userId\":") (str "\x7b\"userId\":" ++ (natToChars u ++
        (str ",\"iat\":" ++ (intToChars iat ++ (str ",\"exp\":" ++
          (intToChars e ++ ['\x7d'])))))) =
        some (natToChars u ++ (str ",\"iat\":" ++ (intToChars iat ++
          (str ",\"exp\":" ++ (intToChars e ++ ['\x7d']))))) := expectLit_append _ _
    have e2 : parseNatFrom (natToChars u ++ (str ",\"iat\":" ++ (intToChars iat ++
        (str ",\"exp\":" ++ (intToChars e ++ ['\x7d']))))) =
        some (u, str ",\"iat\":" ++ (intToChars iat ++ (str ",\"exp\":" ++
          (intToChars e ++ ['\x7d'])))) := by
      apply parseNatFrom_split
      intro c hc
      have : c = ',' := by simpa [str] using hc.symm
      subst this
      decide
    have e3 : expectLit (str ",\"iat\":") (str ",\"iat\":" ++ (intToChars iat ++
        (str ",\"exp\":" ++ (intToChars e ++ ['\x7d'])))) =
        some (intToChars iat ++ (str ",\"exp\":" ++ (intToChars e ++ ['\x7d']))) :=
      expectLit_append _ _
    have e4 : parseIntFrom (intToChars iat ++ (str ",\"exp\":" ++
        (intToChars e ++ ['\x7d']))) =
        some (iat, str ",\"exp\":" ++ (intToChars e ++ ['\x7d'])) := by
      apply parseIntFrom_split
      intro c hc
      have : c = ',' := by simpa [str] using hc.symm
      subst this
      decide
    have e5 : expectLit (str ",\"exp\":") (str ",\"exp\":" ++ (intToChars e ++ ['\x7d'])) =
        some (intToChars e ++ ['\x7d']) := expectLit_append _ _
    have e6 : parseIntFrom (intToChars e ++ ['\x7d']) = some (e, ['\x7d']) := by
      apply parseIntFrom_split
      intro c hc
      have : c = '\x7d' := by simpa using hc.symm
      subst this
      decide
    unfold jsonParsePayload
    rw [hstr]
    simp [e1, e2, e3, e4, e5, e6, expectLit]

/- ## Splitting lemmas and the JWT roundtrip -/

theorem splitCh_ne_nil (sep : Char) (s : Str) : splitCh sep s ≠ [] := by
  cases s with
  | nil => simp [splitCh]
  | cons c cs =>
    unfold splitCh
    split
    · simp
    · split <;> simp

theorem splitCh_no_sep (sep : Char) (a : Str) (ha : ∀ c ∈ a, c ≠ sep) :
    splitCh sep a = [a] := by
  induction a with
  | nil => rfl
  | cons c cs ih =>
    have hc : c ≠ sep := ha c (by simp)
    have ihr := ih (fun x hx => ha x (by simp [hx]))
    unfold splitCh
    rw [ihr]
    simp [hc]

theorem splitCh_cons (sep c : Char) (cs : Str) :
    splitCh sep (c :: cs) =
      (match splitCh sep cs with
       | [] => [[]]
       | g :: gs => if c = sep then [] :: g :: gs else (c :: g) :: gs) := rfl

theorem splitCh_append_sep (sep : Char) (a rest : Str) (ha : ∀ c ∈ a, c ≠ sep) :
    splitCh sep (a ++ sep :: rest) = a :: splitCh sep rest := by
  induction a with
  | nil =>
    rw [List.nil_append, splitCh_cons]
    rcases hx : splitCh sep rest with _ | ⟨g, gs⟩
    · exact absurd hx (splitCh_ne_nil sep rest)
    · simp
  | cons c cs ih =>
    have hc : c ≠ sep := ha c (by simp)
    have ihr := ih (fun x hx => ha x (by simp [hx]))
    rw [List.cons_append, splitCh_cons, ihr]
    simp [hc]

theorem isDigit10_lt256 (c : Char) (h : isDigit10 c = true) : c.toNat < 256 := by
  unfold isDigit10 at h
  simp at h
  omega

theorem natToChars_ascii (n : Nat) : ∀ c ∈ natToChars n, c.toNat < 256 :=
  fun c hc => isDigit10_lt256 c (natToChars_digits n c hc)

theorem intToChars_ascii (i : Int) : ∀ c ∈ intToChars i, c.toNat < 256 := by
  intro c hc
  unfold intToChars at hc
  split at hc
  · rcases List.mem_cons.mp hc with rfl | hc
    · decide
    · exact natToChars_ascii _ c hc
  · exact natToChars_ascii _ c hc

theorem stringify_ascii (p : Payload) : ∀ c ∈ jsonStringifyPayload p, c.toNat < 256 := by
  intro c hc
  unfold jsonStringifyPayload at hc
  simp only [List.append_assoc, List.mem_append] at hc
  rcases hc with hc | hc | hc | hc
  · revert c
    decide
  · exact natToChars_ascii _ c hc
  · revert c
    decide
  · rcases hc with hc | hc
    · exact intToChars_ascii _ c hc
    · rcases hc with hc | hc
      · split at hc
        · simp only [List.mem_append] at hc
          rcases hc with hc | hc
          · revert c
            decide
          · exact intToChars_ascii _ c hc
        · cases hc
      · simp at hc
        subst hc
        decide

theorem validateJWT_generateJWT (rt : JSRuntime) (p : Payload) (secret : Str) (now : Int)
    (hexp : ∀ e, p.exp = some e → e = 0 ∨ ¬ e < now) :
    validateJWT rt (generateJWT rt p secret) secret now = .ok p := by
  have hheader_ascii : ∀ c ∈ jwtHeaderStr, c.toNat < 256 := by decide
  have hpay_ascii := stringify_ascii p
  have hH_nodot := b64url_encode_str_no_dot _ hheader_ascii
  have hP_nodot := b64url_encode_str_no_dot _ hpay_ascii
  have hS_nodot := b64url_encode_no_dot _
    (rt.hmac_bytes (base64UrlEncodeStr jwtHeaderStr ++ '.' ::
      base64UrlEncodeStr (jsonStringifyPayload p)) secret)
  have htoken : generateJWT rt p secret =
      base64UrlEncodeStr jwtHeaderStr ++ '.' ::
        (base64UrlEncodeStr (jsonStringifyPayload p) ++ '.' ::
          base64UrlEncode (rt.hmacSHA256 (base64UrlEncodeStr jwtHeaderStr ++ '.' ::
            base64UrlEncodeStr (jsonStringifyPayload p)) secret)) := by
    simp [generateJWT, List.append_assoc]
  have hsplit : splitCh '.' (generateJWT rt p secret) =
      [base64UrlEncodeStr jwtHeaderStr,
       base64UrlEncodeStr (jsonStringifyPayload p),
       base64UrlEncode (rt.hmacSHA256 (base64UrlEncodeStr jwtHeaderStr ++ '.' ::
         base64UrlEncodeStr (jsonStringifyPayload p)) secret)] := by
    rw [htoken, splitCh_append_sep _ _ _ hH_nodot, splitCh_append_sep _ _ _ hP_nodot,
      splitCh_no_sep _ _ hS_nodot]
  unfold validateJWT
  rw [hsplit]
  have hsig : base64UrlDecode (base64UrlEncode (rt.hmacSHA256
      (base64UrlEncodeStr jwtHeaderStr ++ '.' ::
        base64UrlEncodeStr (jsonStringifyPayload p)) secret)) =
      some (rt.hmacSHA256 (base64UrlEncodeStr jwtHeaderStr ++ '.' ::
        base64UrlEncodeStr (jsonStringifyPayload p)) secret) :=
    b64url_bytes_roundtrip _ (rt.hmac_bytes _ _)
  have hpay : base64UrlDecodeString (base64UrlEncodeStr (jsonStringifyPayload p)) =
      some (jsonStringifyPayload p) := b64url_str_roundtrip _ hpay_ascii
  simp only [hsig, hpay, jsonParsePayload_stringify, if_pos rfl]
  rcases hx : p.exp with _ | e
  · rfl
  · rcases hexp e hx with rfl | hlt
    · simp
    · simp [hlt]

/- ## Claim C8 -/

/-- C8: for every byte sequence b (entries below 256), including the
empty sequence, decoding the URL-safe base64 encoding of b returns b. -/
theorem c8_base64url_roundtrip (b : List Nat) (h : ∀ x ∈ b, x < 256) :
    base64UrlDecode (base64UrlEncode b) = some b :=
  b64url_bytes_roundtrip b h

/-- C8 witness: the roundtrip at a concrete byte sequence. -/
theorem c8_base64url_roundtrip_witness :
    (∀ x ∈ [0, 255, 77, 97, 110], x < 256) ∧
      base64UrlDecode (base64UrlEncode [0, 255, 77, 97, 110]) = some [0, 255, 77, 97, 110] :=
  ⟨by decide, c8_base64url_roundtrip [0, 255, 77, 97, 110] (by decide)⟩

/- ## Claim C3 -/

/-- C3: for every subject identity s, positive lifetime L, key K and
issuance instant, validating the freshly issued token with the same key
succeeds, returns exactly the issued claims, and those claims satisfy
exp = iat + L. -/
theorem c3_validate_issue (rt : JSRuntime) (s : Nat) (L : Int) (K : Str) (now : Int)
    (hL : 0 < L) :
    validateJWT rt (generateJWT rt (createPayload s L now) K) K now = .ok (createPayload s L now)
    ∧ (createPayload s L now).exp = some ((createPayload s L now).iat + L) := by
  constructor
  · apply validateJWT_generateJWT
    intro e he
    simp only [createPayload, Option.some.injEq] at he
    right
    omega
  · rfl

/-- C3 witness: issue and validate at a concrete subject, lifetime, key
and instant. -/
theorem c3_validate_issue_witness :
    (0 : Int) < 7200 ∧
      (validateJWT rtTest (generateJWT rtTest (createPayload 7 7200 100) (str "k")) (str "k") 100 =
          .ok (createPayload 7 7200 100)
        ∧ (createPayload 7 7200 100).exp = some ((createPayload 7 7200 100).iat + 7200)) :=
  ⟨by decide, c3_validate_issue rtTest 7 7200 (str "k") 100 (by decide)⟩

/- ## Claim C10 -/

/-- C10: a correctly signed well-formed token whose payload lacks exp,
or carries exp = 0, validates successfully at every instant (the exp
check fires only for a truthy exp); and the comparison is strict, so a
token whose exp equals the current second is still accepted. -/
theorem c10_expiry_truthy_and_strict (rt : JSRuntime) (u : Nat) (iat : Int) (K : Str)
    (now : Int) :
    validateJWT rt (generateJWT rt ⟨u, iat, none⟩ K) K now = .ok ⟨u, iat, none⟩
    ∧ validateJWT rt (generateJWT rt ⟨u, iat, some 0⟩ K) K now = .ok ⟨u, iat, some 0⟩
    ∧ validateJWT rt (generateJWT rt ⟨u, iat, some now⟩ K) K now = .ok ⟨u, iat, some now⟩ := by
  refine ⟨?_, ?_, ?_⟩
  · apply validateJWT_generateJWT
    intro e he
    simp at he
  · apply validateJWT_generateJWT
    intro e he
    simp only [Option.some.injEq] at he
    left
    omega
  · apply validateJWT_generateJWT
    intro e he
    simp only [Option.some.injEq] at he
    right
    omega

/- ## Claim C5 -/

/-- C5 counterexample: the token "aa.." splits on '.' into exactly 3
parts of which two are empty; the claim says it must fail as malformed,
but validation passes the format check and rejects it as an invalid
signature instead. -/
theorem c5_counterexample :
    (splitCh '.' (str "aa..")).length = 3
    ∧ (str "") ∈ splitCh '.' (str "aa..")
    ∧ validateJWT rtTest (str "aa..") (str "k") 0 = .error (str "Invalid signature")
    ∧ (Except.error (str "Invalid signature") : Except Str Payload) ≠
        .error (str "Invalid token format") := by
  refine ⟨by decide, by decide, by decide, by decide⟩

/-- Reduction of validateJWT under a three-way split. -/
theorem validateJWT_split_three (rt : JSRuntime) (token secret : Str) (now : Int) (a b c : Str)
    (hs : splitCh '.' token = [a, b, c]) :
    validateJWT rt token secret now =
      (match base64UrlDecode c with
       | none => .error (str "InvalidCharacterError")
       | some signature =>
         if rt.hmacSHA256 (a ++ '.' :: b) secret = signature then
           match base64UrlDecodeString b with
           | none => .error (str "InvalidCharacterError")
           | some payloadStr =>
             match jsonParsePayload payloadStr with
             | none => .error (str "SyntaxError")
             | some payload =>
               match payload.exp with
               | some e => if e ≠ 0 ∧ e < now then .error (str "Token expired") else .ok payload
               | none => .ok payload
         else .error (str "Invalid signature")) := by
  unfold validateJWT
  rw [hs]

/-- C5 amended: token validation classifies a token as malformed
(message "Invalid token format") exactly when splitting it on '.' does
not yield exactly 3 parts; part emptiness is not checked, and a token
with an empty part fails later (signature verification), still surfaced
as 401 by the middleware. -/
theorem c5_amended (rt : JSRuntime) (token secret : Str) (now : Int) :
    validateJWT rt token secret now = .error (str "Invalid token format")
      ↔ (splitCh '.' token).length ≠ 3 := by
  constructor
  · intro h hlen
    rcases List.length_eq_three.mp hlen with ⟨a, b, c, habc⟩
    rw [validateJWT_split_three rt token secret now a b c habc] at h
    split at h
    · exact absurd h (by decide)
    · split at h
      · split at h
        · exact absurd h (by decide)
        · split at h
          · exact absurd h (by decide)
          · split at h
            · split at h
              · exact absurd h (by decide)
              · exact Except.noConfusion h
            · exact Except.noConfusion h
      · exact absurd h (by decide)
  · intro hlen
    unfold validateJWT
    rcases hx : splitCh '.' token with _ | ⟨a, tl⟩
    · rfl
    · rcases tl with _ | ⟨b, tl2⟩
      · rfl
      · rcases tl2 with _ | ⟨c, tl3⟩
        · rfl
        · rcases tl3 with _ | ⟨d, tl4⟩
          · exact absurd (by rw [hx]; rfl) hlen
          · rfl

/-- C5 amended witness: a two-part token is classified malformed. -/
theorem c5_amended_witness :
    validateJWT rtTest (str "ab") (str "k") 0 = .error (str "Invalid token format") :=
  (c5_amended rtTest (str "ab") (str "k") 0).mpr (by decide)

/- ## Claim C2 -/

/-- C2 counterexample: three requests failing token validation in the
three modes (malformed, bad signature, expired) receive three pairwise
distinct responses - each is a 401, but the body names the failed
check, so the responses are not identical as the claim states. -/
theorem c2_counterexample :
    verifyToken rtTest 100 ⟨str "GET", str "/session", some (str "Bearer abc"), none⟩ envTest =
        .error (errorResponse (str "Unauthorized - Invalid token format") 401)
    ∧ verifyToken rtTest 100 ⟨str "GET", str "/session", some (str "Bearer aa.."), none⟩ envTest =
        .error (errorResponse (str "Unauthorized - Invalid signature") 401)
    ∧ verifyToken rtTest 100
          ⟨str "GET", str "/session",
            some (str "Bearer " ++ generateJWT rtTest ⟨1, 0, some 5⟩ (str "k")), none⟩ envTest =
        .error (errorResponse (str "Unauthorized - Token expired") 401)
    ∧ errorResponse (str "Unauthorized - Invalid token format") 401 ≠
        errorResponse (str "Unauthorized - Invalid signature") 401
    ∧ errorResponse (str "Unauthorized - Invalid token format") 401 ≠
        errorResponse (str "Unauthorized - Token expired") 401
    ∧ errorResponse (str "Unauthorized - Invalid signature") 401 ≠
        errorResponse (str "Unauthorized - Token expired") 401 := by
  refine ⟨by decide, by decide, by decide, by decide, by decide, by decide⟩

/-- C2 amended: whenever the middleware rejects a request (for any
token-failure mode or a missing/ill-formed header), the response status
is 401 and the body is the single error envelope - but the embedded
message depends on which check failed, so the three token-failure
responses are distinguishable rather than identical. -/
theorem c2_amended (rt : JSRuntime) (now : Int) (req : Request) (env : Env) (r : Response)
    (h : verifyToken rt now req env = .error r) :
    r.status = 401 ∧ ∃ m, r.body = [(str "error", JVal.s m)] := by
  unfold verifyToken at h
  split at h
  · simp only [Except.error.injEq] at h
    subst h
    exact ⟨rfl, _, rfl⟩
  · split at h
    · split at h
      · exact Except.noConfusion h
      · simp only [Except.error.injEq] at h
        subst h
        exact ⟨rfl, _, rfl⟩
    · simp only [Except.error.injEq] at h
      subst h
      exact ⟨rfl, _, rfl⟩

/-- C2 amended witness: the amended statement at a concrete rejected
request. -/
theorem c2_amended_witness :
    (errorResponse (str "Unauthorized - Missing or invalid authorization header") 401).status = 401
    ∧ ∃ m, (errorResponse (str "Unauthorized - Missing or invalid authorization header")
        401).body = [(str "error", JVal.s m)] :=
  c2_amended rtTest 0 ⟨str "GET", str "/session", none, none⟩ envTest _ (by decide)

/- ## Claim C7 -/

/-- One step of the findRoute scan. -/
theorem findRoute_cons (r : RouteEntry) (rest : List RouteEntry) (method pathname : Str) :
    findRoute (r :: rest) method pathname =
      (if routeMethodOf r.pattern ≠ method then findRoute rest method pathname
       else
         match matchPattern (routePatternOf r.pattern) pathname with
         | .error e => .error e
         | .ok (some params) => .ok (some ⟨r.handler, params⟩)
         | .ok none => findRoute rest method pathname) := rfl

/-- Registration order and first-match-wins: scanning a concatenated
table behaves as scanning the front, falling through to the back
exactly when the front has no match. -/
theorem findRoute_append (rs ts : List RouteEntry) (m p : Str) :
    findRoute (rs ++ ts) m p =
      (match findRoute rs m p with
       | .ok none => findRoute ts m p
       | x => x) := by
  induction rs with
  | nil => simp [findRoute]
  | cons r rest ih =>
    rw [List.cons_append, findRoute_cons, findRoute_cons]
    by_cases hm : routeMethodOf r.pattern ≠ m
    · rw [if_pos hm, if_pos hm]
      exact ih
    · rw [if_neg hm, if_neg hm]
      rcases hmp : matchPattern (routePatternOf r.pattern) p with e | o
      · rfl
      · rcases o with _ | params
        · exact ih
        · rfl

/-- C7: route matching scans the table in registration order with the
first full match winning; an entry is skipped on method mismatch; a
segment-count mismatch rejects the pattern; literal segments compare by
exact (case-sensitive) equality; a `:name` capture matches one segment,
recording its percent-decoded value; the registered-route examples
behave as stated; and an unmatched request gets the 404 not-found
response, distinct from a 401. -/
theorem c7_router_matching :
    (∀ rs ts m p, findRoute (rs ++ ts) m p =
      (match findRoute rs m p with
       | .ok none => findRoute ts m p
       | x => x))
    ∧ (∀ (r : RouteEntry) rest m p, routeMethodOf r.pattern ≠ m →
        findRoute (r :: rest) m p = findRoute rest m p)
    ∧ (∀ pat path, (segmentsOf pat).length ≠ (segmentsOf path).length →
        matchPattern pat path = .ok none)
    ∧ (∀ ps qs acc pp qp, (∀ nm, pp ≠ ':' :: nm) → pp ≠ qp →
        matchSegs (pp :: ps) (qp :: qs) acc = .ok none)
    ∧ (∀ ps qs acc pp qp, (∀ nm, pp ≠ ':' :: nm) → pp = qp →
        matchSegs (pp :: ps) (qp :: qs) acc = matchSegs ps qs acc)
    ∧ (∀ ps qs acc name qp v, decodeURIComponentJS qp = some v →
        matchSegs ((':' :: name) :: ps) (qp :: qs) acc = matchSegs ps qs (acc ++ [(name, v)]))
    ∧ findRoute [⟨str "GET /admin/posts/:postId", .createPost⟩] (str "GET")
        (str "/admin/posts/42") = .ok (some ⟨.createPost, [(str "postId", str "42")]⟩)
    ∧ findRoute [⟨str "GET /admin/posts/:postId", .createPost⟩] (str "POST")
        (str "/admin/posts/42") = .ok none
    ∧ findRoute [⟨str "GET /admin/posts/:postId", .createPost⟩] (str "GET")
        (str "/admin/posts") = .ok none
    ∧ matchPattern (str "/Admin") (str "/admin") = .ok none
    ∧ (∀ rt now req env, findRoute routes req.method req.path = .ok none →
        router rt now req env none = .resp (errorResponse (str "Not Found") 404)
        ∧ (errorResponse (str "Not Found") 404).status ≠ 401) := by
  refine ⟨findRoute_append, ?_, ?_, ?_, ?_, ?_, by decide, by decide, by decide, by decide, ?_⟩
  · intro r rest m p h
    rw [findRoute_cons, if_pos h]
  · intro pat path h
    simp [matchPattern, h]
  · intro ps qs acc pp qp hc hne
    unfold matchSegs
    split
    · rename_i name
      exact absurd rfl (hc name)
    · rw [if_neg hne]
  · intro ps qs acc pp qp hc heq
    conv_lhs => unfold matchSegs
    split
    · rename_i name
      exact absurd rfl (hc name)
    · rw [if_pos heq]
  · intro ps qs acc name qp v h
    conv_lhs => unfold matchSegs
    simp only [h]
  · intro rt now req env h
    constructor
    · unfold router
      rw [h]
    · decide

/-- C7 witness: the hypothesised parts of the matching theorem applied
at concrete routes, patterns and segments. -/
theorem c7_router_matching_witness :
    findRoute [⟨str "POST /admin/posts", .createPost⟩, ⟨str "GET /session", .session⟩]
        (str "GET") (str "/session") =
      findRoute [⟨str "GET /session", .session⟩] (str "GET") (str "/session")
    ∧ matchPattern (str "/admin/posts") (str "/admin") = .ok none
    ∧ matchSegs [str "posts"] [str "comments"] [] = .ok none
    ∧ matchSegs [str "posts"] [str "posts"] [] = matchSegs [] [] []
    ∧ matchSegs ((':' :: str "postId") :: []) [str "42"] [] =
        matchSegs [] [] ([] ++ [(str "postId", str "42")])
    ∧ (router rtTest 0 ⟨str "GET", str "/nope", none, none⟩ envTest none =
          .resp (errorResponse (str "Not Found") 404)
        ∧ (errorResponse (str "Not Found") 404).status ≠ 401) := by
  refine ⟨c7_router_matching.2.1 _ _ _ _ (by decide),
          c7_router_matching.2.2.1 _ _ (by decide),
          c7_router_matching.2.2.2.1 [] [] [] _ _ ?_ (by decide),
          c7_router_matching.2.2.2.2.1 [] [] [] _ _ ?_ (by decide),
          c7_router_matching.2.2.2.2.2.1 [] [] [] _ _ _ (by decide),
          c7_router_matching.2.2.2.2.2.2.2.2.2.2 rtTest 0 _ envTest (by decide)⟩
  · intro nm hq
    injection hq with h1 _
    exact absurd h1 (by decide)
  · intro nm hq
    injection hq with h1 _
    exact absurd h1 (by decide)

/- ## Claim C6 -/

/-- C6 counterexample: with the configured non-positive lifetime
JWT_EXPIRY = "0" no default is substituted - the issuing code
(AuthService.login) succeeds with expiresIn = 0 and claims
exp = iat + 0, not 7200; and at the same configuration the wired login
handler reports no expiresIn at all: having consumed the request body,
its validateCredentials re-read fails and the login answers 401. -/
theorem c6_counterexample :
    AuthService.login rtTest 0 ⟨some (str "admin"), some (str "pw")⟩
        ⟨str "admin", str "pws#", str "s", str "k", some (str "0")⟩ =
      .ok ⟨generateJWT rtTest (createPayload 1 0 0) (str "k"), 0⟩
    ∧ (0 : Int) ≠ 7200
    ∧ (createPayload 1 0 0).exp = some ((createPayload 1 0 0).iat + 0)
    ∧ some ((createPayload 1 0 0).iat + 0) ≠ some ((createPayload 1 0 0).iat + 7200)
    ∧ handleLogin rtTest 0
        ⟨str "POST", str "/login", none, some ⟨some (str "admin"), some (str "pw")⟩⟩
        ⟨str "admin", str "pws#", str "s", str "k", some (str "0")⟩ =
      some (errorResponse (str "Invalid credentials") 401) := by
  refine ⟨by decide, by decide, rfl, by decide, by decide⟩

/-- C6 amended: the 7200-second default is substituted exactly when
JWT_EXPIRY is absent or empty (the || fallback): AuthService.login then
issues claims with exp = iat + 7200 and reports expiresIn = 7200.  A
configured non-positive numeric string such as "0" is parsed and used
as-is (see the counterexample).  The wired login handler itself never
reports an expiresIn for any configuration: it consumes the request
body before validateCredentials re-reads it, so every login with a
readable body ends in the 400 validation error or the 401
invalid-credentials error. -/
theorem c6_amended (rt : JSRuntime) (now : Int) (p : Str) (env : Env)
    (hu_ne : env.ADMIN_USERNAME ≠ [])
    (hp_ne : p ≠ [])
    (hh : rt.sha256hex (p ++ env.PASSWORD_SALT) = env.ADMIN_PASSWORD)
    (hexpiry : env.JWT_EXPIRY = none ∨ env.JWT_EXPIRY = some []) :
    (AuthService.login rt now ⟨some env.ADMIN_USERNAME, some p⟩ env =
        .ok ⟨generateJWT rt (createPayload 1 7200 now) env.JWT_SECRET, 7200⟩
      ∧ (createPayload 1 7200 now).exp = some ((createPayload 1 7200 now).iat + 7200))
    ∧ (∀ (req : Request) (body : LoginBody), req.jsonBody = some body →
        handleLogin rt now req env = some (errorResponse (str "Missing username or password") 400)
        ∨ handleLogin rt now req env = some (errorResponse (str "Invalid credentials") 401)) := by
  have hexp : expiryOf env = some 7200 := by
    unfold expiryOf jwtExpiryStr
    rcases hexpiry with h | h
    · rw [h]
      decide
    · rw [h]
      decide
  refine ⟨⟨?_, rfl⟩, ?_⟩
  · have hval : validateLoginRequest ⟨some env.ADMIN_USERNAME, some p⟩ = true := by
      unfold validateLoginRequest
      simp [hu_ne, hp_ne]
    unfold AuthService.login
    simp [hval, AuthService.hashPassword, hh, hexp]
  · intro req body hbody
    unfold handleLogin
    rw [hbody]
    by_cases hv : validateLoginRequest body = false
    · left
      simp [hv]
    · right
      simp [hv, validateCredentials, consumeBody]

/-- C6 amended witness: a concrete hash-configured environment with no
JWT_EXPIRY set. -/
theorem c6_amended_witness :
    (AuthService.login rtTest 5 ⟨some (str "admin"), some (str "pw")⟩
        ⟨str "admin", str "pws#", str "s", str "k", none⟩ =
        .ok ⟨generateJWT rtTest (createPayload 1 7200 5) (str "k"), 7200⟩
      ∧ (createPayload 1 7200 5).exp = some ((createPayload 1 7200 5).iat + 7200))
    ∧ (∀ (req : Request) (body : LoginBody), req.jsonBody = some body →
        handleLogin rtTest 5 req ⟨str "admin", str "pws#", str "s", str "k", none⟩ =
          some (errorResponse (str "Missing username or password") 400)
        ∨ handleLogin rtTest 5 req ⟨str "admin", str "pws#", str "s", str "k", none⟩ =
          some (errorResponse (str "Invalid credentials") 401)) :=
  c6_amended rtTest 5 (str "pw") ⟨str "admin", str "pws#", str "s", str "k", none⟩
    (by decide) (by decide) (by decide) (Or.inl rfl)

/- ## Claim C1 -/

/-- C1: the worker's fetch entry never invokes the authentication
middleware - it calls the router with a null user - so a POST
/admin/posts request with no Authorization header is dispatched to the
create-post handler with no caller identity, even though the
(never-called) authenticate middleware rejects that same request
with the 401 missing-header response. -/
theorem c1_gate_bypassed :
    workerFetch rtTest 0 ⟨str "POST", str "/admin/posts", none, none⟩ envTest =
      .dispatched .createPost [] none
    ∧ authenticate rtTest 0 ⟨str "POST", str "/admin/posts", none, none⟩ envTest =
      .error (errorResponse (str "Unauthorized - Missing or invalid authorization header") 401) := by
  refine ⟨by decide, by decide⟩

/- ## Claim C9 -/

/-- C9: GET /session as wired always answers 401: with a bearer token
that verifyToken accepts (first conjunct), the worker still returns the
401 invalid-token response (second conjunct) because index.js passes a
null user straight to the handler; on the verified claims the handler
itself would produce the documented 200 body with valid, userId and
expiresAt (third conjunct). -/
theorem c9_session_always_401 :
    verifyToken rtTest 0
        ⟨str "GET", str "/session",
          some (str "Bearer " ++ generateJWT rtTest (createPayload 1 7200 0) (str "k")), none⟩
        envTest = .ok (some (createPayload 1 7200 0))
    ∧ workerFetch rtTest 0
        ⟨str "GET", str "/session",
          some (str "Bearer " ++ generateJWT rtTest (createPayload 1 7200 0) (str "k")), none⟩
        envTest = .resp (errorResponse (str "Invalid or missing token") 401)
    ∧ handleSessionValidation rtTest (some (createPayload 1 7200 0)) =
        successResponse [(str "valid", .b true), (str "userId", .n 1),
          (str "expiresAt", .s (rtTest.toISOString 7200))] 200 := by
  refine ⟨by decide, by decide, by decide⟩

/- ## Claim C4 -/

/-- C4: AuthService.login implements the claimed salted-hash check - it
rejects as unauthorized exactly when the username differs or
digest(password + salt) differs from the configured expected hash
(first conjunct).  But the handler wired to POST /login uses the
middleware's validateCredentials, which compares the submitted
password directly with env.ADMIN_PASSWORD: with ADMIN_PASSWORD holding
the digest value (as scripts/generate-secrets.cjs produces), the
correct password is accepted by AuthService.login yet rejected by the
wired login path (remaining conjuncts). -/
theorem c4_plaintext_comparison :
    (∀ (rt : JSRuntime) (now : Int) (u p : Str) (env : Env),
      AuthService.login rt now ⟨some u, some p⟩ env =
          .error (.unauthorized (str "Invalid credentials"))
        ↔ (u ≠ [] ∧ p ≠ [] ∧
            (u ≠ env.ADMIN_USERNAME ∨ rt.sha256hex (p ++ env.PASSWORD_SALT) ≠ env.ADMIN_PASSWORD)))
    ∧ (AuthService.login rtTest 0 ⟨some (str "admin"), some (str "pw")⟩
          ⟨str "admin", str "pws#", str "s", str "k", none⟩).isOk = true
    ∧ validateCredentials
        ⟨str "POST", str "/login", none, some ⟨some (str "admin"), some (str "pw")⟩⟩
        ⟨str "admin", str "pws#", str "s", str "k", none⟩ = none
    ∧ handleLogin rtTest 0
        ⟨str "POST", str "/login", none, some ⟨some (str "admin"), some (str "pw")⟩⟩
        ⟨str "admin", str "pws#", str "s", str "k", none⟩ =
        some (errorResponse (str "Invalid credentials") 401) := by
  refine ⟨?_, by decide, by decide, by decide⟩
  intro rt now u p env
  unfold AuthService.login
  by_cases hval : (validateLoginRequest ⟨some u, some p⟩ : Bool) = false
  · rw [if_pos hval]
    have hor : u = [] ∨ p = [] := by
      unfold validateLoginRequest at hval
      simp at hval
      tauto
    apply iff_of_false
    · simp
    · rintro ⟨h1, h2, _⟩
      rcases hor with h | h
      · exact h1 h
      · exact h2 h
  · rw [if_neg hval]
    have hand : u ≠ [] ∧ p ≠ [] := by
      unfold validateLoginRequest at hval
      simpa using hval
    by_cases hu : u = env.ADMIN_USERNAME
    · by_cases hh : rt.sha256hex (p ++ env.PASSWORD_SALT) = env.ADMIN_PASSWORD
      · apply iff_of_false
        · rcases hx : expiryOf env with _ | L
          · simp [hu, hh, hx, AuthService.hashPassword]
          · simp [hu, hh, hx, AuthService.hashPassword]
        · rintro ⟨_, _, hor⟩
          rcases hor with h | h
          · exact h hu
          · exact h hh
      · apply iff_of_true
        · simp [hu, hh, AuthService.hashPassword]
        · exact ⟨hand.1, hand.2, Or.inr hh⟩
    · apply iff_of_true
      · simp [hu]
      · exact ⟨hand.1, hand.2, Or.inl hu⟩
